import Mathlib

/-!
Verification development for the LAMS real-time conferencing backend
(lams-mvp/backend/app).  Python source files are shallowly embedded as
executable Lean definitions:

* app/translate/subtitle_cache.py  -> the Redis-backed subtitle cache,
  modelled as a pure state (an ideal Redis: every call succeeds, keys do
  not expire inside the window under study).
* app/ai_pipeline/qos.py           -> the QoS degradation classifier,
  with millisecond values modelled as rationals.
* app/websocket/handler.py         -> the dual-path per-utterance
  orchestrator and its S2S translation helper; external AI calls are
  inputs (oracles), outbound websocket messages are collected in order.
* app/audio/vad.py                 -> the WAV parsing / VAD gate, with
  Python byte strings as lists of naturals and operations that may raise
  modelled in an error monad.
* app/rooms/routes.py              -> the transcript read endpoint.
* the meeting-session lifecycle of handler.py, as a small-step system
  that exposes the await point inside get_or_create_session.
-/

namespace LAMS

/-! ## Subtitle translation cache (app/translate/subtitle_cache.py)

Redis keys are modelled per keyspace:
* `trans` holds the content keys subtitle_trans:{id}:{lang};
* `pending` holds the markers subtitle_trans_pending:{id}:{lang}
  (value irrelevant, only existence matters);
* `originals` holds subtitle_original:{id} -> (text, lang).

redis-py facts the embedding preserves: GET returns the stored string or
None; Python truthiness treats the empty string like None; SET ... NX
returns None when the key already exists; EXISTS tests key presence
regardless of value. -/

structure CacheState where
  trans : List ((String × String) × String)
  pending : List (String × String)
  originals : List (String × (String × String))
  deriving Repr, DecidableEq

/-- GET on a keyspace modelled as an association list (first binding wins). -/
def redisGet (kvs : List ((String × String) × String)) (k : String × String) :
    Option String :=
  (kvs.find? (fun e => e.1 == k)).map (fun e => e.2)

/-- SET (unconditional overwrite) on a keyspace. -/
def redisSet (kvs : List ((String × String) × String)) (k : String × String)
    (v : String) : List ((String × String) × String) :=
  (k, v) :: kvs.filter (fun e => e.1 != k)

def emptyCache : CacheState := ⟨[], [], []⟩

/-- store_translation: SETEX the content key, then DELETE the pending marker. -/
def store_translation (s : CacheState) (subtitle_id target_lang text : String) :
    CacheState :=
  { s with
    trans := redisSet s.trans (subtitle_id, target_lang) text
    pending := s.pending.filter (fun k => k != (subtitle_id, target_lang)) }

/-- get_translation with wait=False: GET the content key and return it when
Python-truthy, otherwise None (the wait branch is not entered). -/
def get_translation_nowait (s : CacheState) (subtitle_id target_lang : String) :
    Option String :=
  match redisGet s.trans (subtitle_id, target_lang) with
  | some t => if t = "" then none else some t
  | none => none

/-- mark_translation_pending: return False when the content key EXISTS,
otherwise SET the marker with NX and return whether the set took effect. -/
def mark_translation_pending (s : CacheState) (subtitle_id target_lang : String) :
    Bool × CacheState :=
  match redisGet s.trans (subtitle_id, target_lang) with
  | some _ => (false, s)
  | none =>
    if (subtitle_id, target_lang) ∈ s.pending then (false, s)
    else (true, { s with pending := (subtitle_id, target_lang) :: s.pending })

/-- store_original: SETEX subtitle_original:{id}. -/
def store_original (s : CacheState) (subtitle_id text lang : String) : CacheState :=
  { s with
    originals := (subtitle_id, (text, lang)) ::
      s.originals.filter (fun e => e.1 != subtitle_id) }

/-- The background fill task translate_and_cache of
app/websocket/handler.py.  The translate_text_simple outcome is an input:
`none` models a raised exception (caught by the task, which only logs),
`some t` the returned string, `some ""` being its failure value.  The task
stores the result only when non-empty; no branch deletes the pending
marker. -/
def translate_and_cache (s : CacheState) (subtitle_id tgt_lang : String)
    (translator : Option String) : CacheState :=
  match mark_translation_pending s subtitle_id tgt_lang with
  | (true, s1) =>
    match translator with
    | none => s1
    | some t => if t = "" then s1 else store_translation s1 subtitle_id tgt_lang t
  | (false, s1) => s1

/-! ## QoS controller (app/ai_pipeline/qos.py)

Millisecond measurements are rationals.  end_measurement is embedded as a
function of the configured bounds, the controller state last_latency_ms,
and the measured latency of this utterance; it returns the filled-in
metrics record.  The input metrics of the Python code carry the dataclass
defaults (level NONE, fallback False), which the embedding rebuilds. -/

inductive DegradationLevel where
  | none
  | light
  | moderate
  | severe
  deriving Repr, DecidableEq

structure QoSMetrics where
  total_latency_ms : ℚ
  jitter_ms : ℚ
  degradation_level : DegradationLevel
  should_fallback_to_subtitle : Bool
  deriving Repr, DecidableEq

def end_measurement (max_latency_ms max_jitter_ms last_latency_ms latency : ℚ) :
    QoSMetrics :=
  let jitter := if 0 < last_latency_ms then |latency - last_latency_ms| else 0
  let m0 : QoSMetrics :=
    { total_latency_ms := latency
      jitter_ms := jitter
      degradation_level := DegradationLevel.none
      should_fallback_to_subtitle := false }
  let m1 :=
    if max_latency_ms * 2 < latency then
      { m0 with degradation_level := DegradationLevel.severe
                should_fallback_to_subtitle := true }
    else if max_latency_ms * (3 / 2) < latency then
      { m0 with degradation_level := DegradationLevel.moderate
                should_fallback_to_subtitle := true }
    else if max_latency_ms < latency then
      { m0 with degradation_level := DegradationLevel.light }
    else m0
  if max_jitter_ms * 2 < jitter then
    { m1 with should_fallback_to_subtitle := true }
  else m1

/-! ## Meeting-session lifecycle (app/websocket/handler.py, migration 003)

get_or_create_session and end_session of handler.py over the
meeting_sessions table.  Session ids are allocated from a counter so they
stay distinct.  Migration 003_add_meeting_sessions creates only a plain
index on room_id — there is no unique partial index on
(room_id) WHERE is_active — and the handler takes no lock, so the racy
model below also exposes the await point between the SELECT of an active
session and the INSERT/COMMIT of a new one, during which another task may
run the same function to completion. -/

structure MeetingSession where
  id : Nat
  room_id : String
  is_active : Bool
  deriving Repr, DecidableEq

structure SessDB where
  sessions : List MeetingSession
  next_id : Nat
  memory : List (String × Nat)
  deriving Repr, DecidableEq

def emptySessDB : SessDB := ⟨[], 0, []⟩

/-- Number of meeting_sessions rows of the room with is_active=true. -/
def activeCount (db : SessDB) (room : String) : Nat :=
  (db.sessions.filter (fun s => s.room_id == room && s.is_active)).length

/-- The in-memory _active_sessions dict lookup. -/
def memLookup (m : List (String × Nat)) (room : String) : Option Nat :=
  (m.find? (fun e => e.1 == room)).map (fun e => e.2)

/-- SELECT ... WHERE room_id = room AND is_active, scalar_one_or_none. -/
def dbActive (db : SessDB) (room : String) : Option Nat :=
  (db.sessions.find? (fun s => s.room_id == room && s.is_active)).map
    (fun s => s.id)

/-- get_or_create_session run to completion with no interleaving. -/
def get_or_create_session (db : SessDB) (room : String) : Nat × SessDB :=
  match memLookup db.memory room with
  | some sid => (sid, db)
  | none =>
    match dbActive db room with
    | some sid => (sid, { db with memory := (room, sid) :: db.memory })
    | none =>
      (db.next_id,
        { sessions :=
            { id := db.next_id, room_id := room, is_active := true } :: db.sessions
          next_id := db.next_id + 1
          memory := (room, db.next_id) :: db.memory })

/-- end_session: pop the room from memory; if a session id was recorded,
mark that row inactive. -/
def end_session (db : SessDB) (room : String) : SessDB :=
  match memLookup db.memory room with
  | none => db
  | some sid =>
    { db with
      memory := db.memory.filter (fun e => e.1 != room)
      sessions := db.sessions.map (fun s =>
        if s.id == sid then { s with is_active := false } else s) }

/-- A task running get_or_create_session: not yet started its checks,
suspended between the SELECT (which saw no active session) and the
INSERT/COMMIT, or finished with a session id. -/
inductive SessTask where
  | start (room : String)
  | createPending (room : String)
  | done (sid : Nat)
  deriving Repr, DecidableEq

/-- Interleaved execution of several get_or_create_session calls: each
step runs one task up to its next await point, as the code does between
suspension points. -/
inductive SessStep : List SessTask × SessDB → List SessTask × SessDB → Prop where
  | memHit (pre post : List SessTask) (room : String) (sid : Nat) (db : SessDB)
      (h : memLookup db.memory room = some sid) :
      SessStep (pre ++ SessTask.start room :: post, db)
        (pre ++ SessTask.done sid :: post, db)
  | dbHit (pre post : List SessTask) (room : String) (sid : Nat) (db : SessDB)
      (h1 : memLookup db.memory room = none)
      (h2 : dbActive db room = some sid) :
      SessStep (pre ++ SessTask.start room :: post, db)
        (pre ++ SessTask.done sid :: post,
          { db with memory := (room, sid) :: db.memory })
  | dbMiss (pre post : List SessTask) (room : String) (db : SessDB)
      (h1 : memLookup db.memory room = none)
      (h2 : dbActive db room = none) :
      SessStep (pre ++ SessTask.start room :: post, db)
        (pre ++ SessTask.createPending room :: post, db)
  | create (pre post : List SessTask) (room : String) (db : SessDB) :
      SessStep (pre ++ SessTask.createPending room :: post, db)
        (pre ++ SessTask.done db.next_id :: post,
          { sessions :=
              { id := db.next_id, room_id := room, is_active := true } ::
                db.sessions
            next_id := db.next_id + 1
            memory := (room, db.next_id) :: db.memory })

inductive SessReach : List SessTask × SessDB → List SessTask × SessDB → Prop where
  | refl (c : List SessTask × SessDB) : SessReach c c
  | tail (a b c : List SessTask × SessDB) :
      SessReach a b → SessStep b c → SessReach a c

/-- Serialized (per-room mutex style) executions: each handler call runs
atomically. -/
inductive SessOp where
  | getOrCreate (room : String)
  | endSess (room : String)
  deriving Repr, DecidableEq

def applySessOp (db : SessDB) : SessOp → SessDB
  | SessOp.getOrCreate room => (get_or_create_session db room).2
  | SessOp.endSess room => end_session db room

def runSessOps (db : SessDB) (ops : List SessOp) : SessDB :=
  ops.foldl applySessOp db

/-! ## VAD gate (app/audio/vad.py)

Python byte strings are lists of naturals below 256.  struct.unpack is
modelled as an Option-returning primitive that fails (as the Python one
raises struct.error) unless the slice has exactly the required width.
parse_wav_header wraps its whole body in try/except returning None, so a
raised error and a plain None coincide there and its embedding returns
Option.  extract_pcm_from_wav has no such handler: its data-chunk scan
runs bare, so it is embedded in an error monad, Except.error standing for
an uncaught Python exception.  get_audio_energy returns the RMS of the
16-bit samples; to stay in ℚ the embedding returns the square of that
RMS (the mean of squares), and every threshold comparison against a
non-negative bound e is rendered as a comparison against e squared, which
is equivalent since square root is monotone on non-negatives. -/

def sliceBytes (b : List Nat) (i j : Nat) : List Nat :=
  (b.drop i).take (j - i)

def unpackU32le : List Nat → Option Nat
  | [b0, b1, b2, b3] => some (b0 + 256 * b1 + 65536 * b2 + 16777216 * b3)
  | _ => none

def unpackU16le : List Nat → Option Nat
  | [b0, b1] => some (b0 + 256 * b1)
  | _ => none

/-- ASCII bytes of the RIFF, WAVE, fmt and data tags. -/
def riffTag : List Nat := [82, 73, 70, 70]

def waveTag : List Nat := [87, 65, 86, 69]

def fmtTag : List Nat := [102, 109, 116, 32]

def dataTag : List Nat := [100, 97, 116, 97]

/-- The fmt-chunk scan loop of parse_wav_header.  A chunk whose fmt payload
is shorter than 16 bytes is skipped and the scan continues, as in the
source.  Any struct failure is mapped to none, which is what the enclosing
try/except of parse_wav_header produces. -/
def findFmt (wav : List Nat) (pos : Nat) : Option (Nat × Nat × Nat) :=
  if h : pos + 8 < wav.length then
    match unpackU32le (sliceBytes wav (pos + 4) (pos + 8)) with
    | none => none
    | some csize =>
      if sliceBytes wav pos (pos + 4) = fmtTag then
        let fmt_data := sliceBytes wav (pos + 8) (pos + 8 + csize)
        if 16 ≤ fmt_data.length then
          match unpackU16le (sliceBytes fmt_data 2 4),
              unpackU32le (sliceBytes fmt_data 4 8),
              unpackU16le (sliceBytes fmt_data 14 16) with
          | some channels, some sample_rate, some bits =>
            some (sample_rate, channels, bits)
          | _, _, _ => none
        else findFmt wav (pos + 8 + csize)
      else findFmt wav (pos + 8 + csize)
  else none
termination_by wav.length - pos
decreasing_by all_goals omega

/-- parse_wav_header: None below 44 bytes, None without RIFF/WAVE magic,
otherwise the (sample_rate, channels, bits_per_sample) of the first fmt
chunk carrying at least 16 payload bytes. -/
def parse_wav_header (wav : List Nat) : Option (Nat × Nat × Nat) :=
  if wav.length < 44 then none
  else if sliceBytes wav 0 4 ≠ riffTag ∨ sliceBytes wav 8 12 ≠ waveTag then none
  else findFmt wav 12

/-- The stereo-to-mono downmix loop (keep the left channel of each
4-byte frame). -/
def monoFromStereo (pcm : List Nat) (i : Nat) : List Nat :=
  if h : i < pcm.length then
    (if i + 2 ≤ pcm.length then sliceBytes pcm i (i + 2) else []) ++
      monoFromStereo pcm (i + 4)
  else []
termination_by pcm.length - i
decreasing_by omega

/-- The data-chunk scan loop of extract_pcm_from_wav.  This loop is not
wrapped in try/except, so a struct failure would escape as an uncaught
exception: Except.error. -/
def findData (wav : List Nat) (sample_rate channels : Nat) (pos : Nat) :
    Except String (Option (List Nat × Nat)) :=
  if h : pos + 8 < wav.length then
    match unpackU32le (sliceBytes wav (pos + 4) (pos + 8)) with
    | none => Except.error "struct.error"
    | some csize =>
      if sliceBytes wav pos (pos + 4) = dataTag then
        let pcm0 := sliceBytes wav (pos + 8) (pos + 8 + csize)
        let pcm := if channels = 2 then monoFromStereo pcm0 0 else pcm0
        Except.ok (some (pcm, sample_rate))
      else findData wav sample_rate channels (pos + 8 + csize)
  else Except.ok none
termination_by wav.length - pos
decreasing_by all_goals omega

/-- extract_pcm_from_wav: header parse, 16-bit check, then the data-chunk
scan. -/
def extract_pcm_from_wav (wav : List Nat) :
    Except String (Option (List Nat × Nat)) :=
  match parse_wav_header wav with
  | none => Except.ok none
  | some (sample_rate, channels, bits_per_sample) =>
    if bits_per_sample ≠ 16 then Except.ok none
    else findData wav sample_rate channels 12

/-- struct.unpack of one little-endian signed 16-bit sample. -/
def int16OfBytes (lo hi : Nat) : Int :=
  let v := lo + 256 * hi
  if 32768 ≤ v then (v : Int) - 65536 else (v : Int)

/-- The sample list of struct.unpack with format code h repeated
len(pcm) / 2 times over pcm truncated to full pairs. -/
def pcmSamples : List Nat → List Int
  | lo :: hi :: rest => int16OfBytes lo hi :: pcmSamples rest
  | _ => []

/-- get_audio_energy, squared: the Python function returns
sqrt(sum_squares / num_samples); the embedding returns the radicand. -/
def get_audio_energy_sq (wav : List Nat) : Except String ℚ :=
  match extract_pcm_from_wav wav with
  | Except.error e => Except.error e
  | Except.ok Option.none => Except.ok 0
  | Except.ok (some (pcm, _)) =>
    if pcm.length < 2 then Except.ok 0
    else
      let samples := pcmSamples pcm
      let sum_squares : Int := (samples.map (fun s => s * s)).sum
      Except.ok ((sum_squares : ℚ) / (samples.length : ℚ))

/-- The webrtcvad environment: whether the library imported, and the
per-frame classifier, whose `none` outcome models a raised exception
(caught by the loop, which continues with the frame counted). -/
structure VadEnv where
  available : Bool
  classify : List Nat → Nat → Option Bool

structure VADResult where
  has_speech : Bool
  speech_ratio : ℚ
  total_frames : Nat
  speech_frames : Nat
  deriving Repr, DecidableEq

/-- The per-frame loop of detect_voice_activity: i ranges over
0, frame_size, 2 frame_size, ... while a whole frame remains. -/
def countFrames (env : VadEnv) (pcm : List Nat) (sample_rate frame_size i : Nat) :
    Nat × Nat :=
  if h : 0 < frame_size ∧ i + frame_size ≤ pcm.length then
    let frame := sliceBytes pcm i (i + frame_size)
    let rest := countFrames env pcm sample_rate frame_size (i + frame_size)
    match env.classify frame sample_rate with
    | some true => (rest.1 + 1, rest.2 + 1)
    | some false => (rest.1 + 1, rest.2)
    | none => (rest.1 + 1, rest.2)
  else (0, 0)
termination_by pcm.length - i
decreasing_by omega

/-- detect_voice_activity: fall back to speech when webrtcvad is missing,
reject when PCM extraction fails, fall back to speech on unsupported
sample rates, else classify 20 ms frames and compare the speech ratio. -/
def detect_voice_activity (env : VadEnv) (wav : List Nat)
    (min_speech_ratio : ℚ) : Except String VADResult :=
  if env.available = false then Except.ok ⟨true, 1, 1, 1⟩
  else
    match extract_pcm_from_wav wav with
    | Except.error e => Except.error e
    | Except.ok Option.none => Except.ok ⟨false, 0, 0, 0⟩
    | Except.ok (some (pcm, sample_rate)) =>
      if sample_rate ∉ ([8000, 16000, 32000, 48000] : List Nat) then
        Except.ok ⟨true, 1, 1, 1⟩
      else
        let frame_size := sample_rate * 20 / 1000 * 2
        if pcm.length < frame_size then Except.ok ⟨false, 0, 0, 0⟩
        else
          let counted := countFrames env pcm sample_rate frame_size 0
          if counted.1 = 0 then Except.ok ⟨false, 0, 0, 0⟩
          else
            let ratio : ℚ := (counted.2 : ℚ) / (counted.1 : ℚ)
            Except.ok ⟨decide (min_speech_ratio ≤ ratio), ratio,
              counted.1, counted.2⟩

/-- has_speech: energy gate first (thresholds squared, see the section
comment), then the frame classifier. -/
def has_speech (env : VadEnv) (wav : List Nat) (min_energy min_speech_ratio : ℚ) :
    Except String Bool :=
  match get_audio_energy_sq wav with
  | Except.error e => Except.error e
  | Except.ok energy_sq =>
    if energy_sq < min_energy ^ 2 then Except.ok false
    else
      match detect_voice_activity env wav min_speech_ratio with
      | Except.error e => Except.error e
      | Except.ok r => Except.ok r.has_speech

/-! ## Per-utterance orchestrator (app/websocket/handler.py)

The dual-path pipeline process_audio_dual_path and its helper
_process_s2s_translation.  External AI calls are oracles supplied as
arguments: the detect_language result, the per-target process_audio
result (`none` models a raised exception, caught by the helper), and the
translate_text_simple result for background fills.  Outbound websocket
traffic is collected as an ordered message list; the parallel S2S bucket
tasks are laid out in bucket order (any interleaving carries the same
per-recipient messages).  The Msg vocabulary includes the qos_warning
control message of the outbound protocol so that its absence from the
produced traffic is expressible.  The step-10 database write produces no
messages and its session half is the SessDB model above. -/

structure Participant where
  user_id : String
  display_name : String
  native_language : String
  audio_mode : String
  subtitle_enabled : Bool
  target_language : String
  deriving Repr, DecidableEq

inductive Msg where
  | audioBytes (to_user : String) (data : List Nat)
  | subtitle (to_user : String) (subtitle_id : String) (seq : Nat)
      (speaker_id : String) (text : String) (lang : String) (is_translated : Bool)
  | qos_warning (to_user : String)
  deriving Repr, DecidableEq

structure ProcessedAudio where
  speaker_id : String
  source_language : String
  target_language : String
  original_text : String
  translated_text : String
  audio_data : Option (List Nat)
  metrics : QoSMetrics
  deriving Repr, DecidableEq

structure S2SResult where
  target_lang : String
  translated_text : String
  deriving Repr, DecidableEq

/-- Python truthiness of a bytes-or-None value. -/
def audioTruthy : Option (List Nat) → Bool
  | Option.none => false
  | some d => !d.isEmpty

/-- participants.get(user_id). -/
def findParticipant (ps : List Participant) (uid : String) : Option Participant :=
  ps.find? (fun p => p.user_id == uid)

/-- _process_s2s_translation: run the (oracle-supplied) S2S call; when it
returned audio or text, walk the bucket in order sending the translated
audio to every member except the speaker and the translated subtitle to
every subtitle-enabled member; store a non-empty translation in the
cache; on an exception deliver nothing and report an empty translation. -/
def process_s2s_translation (speaker_id target_lang : String)
    (user_ids : List String) (subtitle_id : String) (seq : Nat)
    (participants : List Participant) (result : Option ProcessedAudio)
    (cache : CacheState) : List Msg × CacheState × S2SResult :=
  match result with
  | Option.none => ([], cache, ⟨target_lang, ""⟩)
  | some res =>
    let translated_text := res.translated_text
    let msgs :=
      if audioTruthy res.audio_data || translated_text != "" then
        (user_ids.map (fun uid =>
          (if audioTruthy res.audio_data && uid != speaker_id then
            [Msg.audioBytes uid (res.audio_data.getD [])]
          else []) ++
          (match findParticipant participants uid with
           | some p =>
             if p.subtitle_enabled then
               [Msg.subtitle uid subtitle_id seq speaker_id translated_text
                 target_lang true]
             else []
           | Option.none => []))).join
      else []
    let cache2 :=
      if translated_text != "" then
        store_translation cache subtitle_id target_lang translated_text
      else cache
    (msgs, cache2, ⟨target_lang, translated_text⟩)

structure Bucket where
  target_lang : String
  users : List String
  deriving Repr, DecidableEq

/-- Append a translated-mode listener to the bucket of a target language,
creating the bucket at the end on first use (Python dict insertion
order). -/
def addToBucket (bs : List Bucket) (tgt uid : String) : List Bucket :=
  match bs with
  | [] => [⟨tgt, [uid]⟩]
  | b :: rest =>
    if b.target_lang == tgt then ⟨b.target_lang, b.users ++ [uid]⟩ :: rest
    else b :: addToBucket rest tgt uid

/-- The classification loop over participants: translated-mode listeners
other than the speaker whose effective target differs from the detected
speaker language, grouped per target. -/
def buildBuckets (participants : List Participant)
    (speaker_id speaker_lang : String) : List Bucket :=
  participants.foldl (fun bs p =>
    if p.user_id != speaker_id && p.audio_mode == "translated" then
      let tgt := if p.target_language = "" then p.native_language
                 else p.target_language
      if tgt != speaker_lang then addToBucket bs tgt p.user_id else bs
    else bs) []

/-- Adding the translated-mode speaker to their target bucket for
subtitles only, skipping the append when already present. -/
def addSpeakerToBucket (bs : List Bucket) (tgt uid : String) : List Bucket :=
  match bs with
  | [] => [⟨tgt, [uid]⟩]
  | b :: rest =>
    if b.target_lang == tgt then
      (if uid ∈ b.users then b else ⟨b.target_lang, b.users ++ [uid]⟩) :: rest
    else b :: addSpeakerToBucket rest tgt uid

/-- The gathered S2S tasks, one per bucket, in bucket order. -/
def s2s_stage (speaker_id subtitle_id : String) (seq : Nat)
    (participants : List Participant) (oracle : String → Option ProcessedAudio)
    (cache : CacheState) :
    List Bucket → List Msg × CacheState × List S2SResult
  | [] => ([], cache, [])
  | b :: rest =>
    let one := process_s2s_translation speaker_id b.target_lang b.users
      subtitle_id seq participants (oracle b.target_lang) cache
    let more := s2s_stage speaker_id subtitle_id seq participants oracle
      one.2.1 rest
    (one.1 ++ more.1, more.2.1, one.2.2 :: more.2.2)

/-- The translations dict collected from the gather results: entries with
a non-empty translated_text, in task order. -/
def collectTranslations (rs : List S2SResult) : List (String × String) :=
  (rs.filter (fun r => r.translated_text != "")).map
    (fun r => (r.target_lang, r.translated_text))

/-- dict membership target_lang in translations. -/
def hasTranslation (ts : List (String × String)) (tgt : String) : Bool :=
  ts.any (fun e => e.1 == tgt)

/-- The per-room mutable state the handler keeps in module-level dicts:
_subtitle_seq[room] and _last_subtitle_cache[room]. -/
structure RoomState where
  subtitle_seq : Nat
  last_subtitle : List (String × String)
  deriving Repr, DecidableEq

/-- The step-9 background fill loop: subtitle-enabled original-mode
listeners whose effective target differs from the detected language and
is absent from the collected translations each spawn a translate_and_cache
task; the detached tasks are applied to the cache in spawn order. -/
def background_fills (participants : List Participant)
    (speaker_lang : String) (translations : List (String × String))
    (subtitle_id : String) (bg_translate : String → Option String)
    (cache : CacheState) : CacheState :=
  participants.foldl (fun c p =>
    if p.subtitle_enabled && p.audio_mode == "original" then
      let tgt := if p.target_language = "" then p.native_language
                 else p.target_language
      if tgt != speaker_lang && !(hasTranslation translations tgt) then
        translate_and_cache c subtitle_id tgt (bg_translate tgt)
      else c
    else c) cache

/-- The speaker-self half of the subtitle-delivery branch (handler.py
lines 469-503), message side: the speaker gets the original-text subtitle
when subtitles are on and they are not routed into a translation bucket
(original mode, or translated mode with an empty or matching target). -/
def speaker_self_msgs (sp : Option Participant) (speaker_id subtitle_id : String)
    (seq : Nat) (original_text speaker_lang : String) : List Msg :=
  match sp with
  | some p =>
    if p.audio_mode == "translated" then
      let tgt := if p.target_language = "" then p.native_language
                 else p.target_language
      if tgt ≠ "" ∧ tgt ≠ speaker_lang then []
      else if p.subtitle_enabled then
        [Msg.subtitle speaker_id subtitle_id seq speaker_id original_text
          speaker_lang false]
      else []
    else if p.subtitle_enabled then
      [Msg.subtitle speaker_id subtitle_id seq speaker_id original_text
        speaker_lang false]
    else []
  | Option.none => []

/-- The speaker-self half, bucket side: a translated-mode speaker with a
non-empty target different from the detected language joins that bucket
for subtitles only. -/
def speaker_buckets (sp : Option Participant) (buckets0 : List Bucket)
    (speaker_id speaker_lang : String) : List Bucket :=
  match sp with
  | some p =>
    if p.audio_mode == "translated" then
      let tgt := if p.target_language = "" then p.native_language
                 else p.target_language
      if tgt ≠ "" ∧ tgt ≠ speaker_lang then
        addSpeakerToBucket buckets0 tgt speaker_id
      else buckets0
    else buckets0
  | Option.none => buckets0

/-- process_audio_dual_path.  Returns the ordered outbound messages, the
updated room state and the updated cache. -/
def process_audio_dual_path (env : VadEnv) (speaker_id : String)
    (audio_bytes : List Nat) (speaker_lang_hint : String)
    (participants : List Participant) (detect : String × String)
    (s2s : String → Option ProcessedAudio)
    (bg_translate : String → Option String) (fresh_subtitle_id : String)
    (st : RoomState) (cache : CacheState) :
    List Msg × RoomState × CacheState :=
  if audio_bytes.length < 44 + 16000 then ([], st, cache)
  else
    match has_speech env audio_bytes 300 (1 / 10) with
    | Except.error _ => ([], st, cache)
    | Except.ok false => ([], st, cache)
    | Except.ok true =>
      let pure_original_users := (participants.filter (fun p =>
        p.user_id != speaker_id && p.audio_mode == "original")).map
        (fun p => p.user_id)
      let msgs1 := pure_original_users.map
        (fun u => Msg.audioBytes u audio_bytes)
      let original_text := detect.1
      let speaker_lang := if detect.2 = "" ∨ detect.2 = "multi" then
        speaker_lang_hint else detect.2
      if original_text = "" then (msgs1, st, cache)
      else
        let reclass := (participants.filter (fun p =>
          p.user_id != speaker_id && p.audio_mode == "translated" &&
            (if p.target_language = "" then p.native_language
             else p.target_language) == speaker_lang)).map (fun p => p.user_id)
        let msgs2 := reclass.map (fun u => Msg.audioBytes u audio_bytes)
        let buckets0 := buildBuckets participants speaker_id speaker_lang
        let last := (((st.last_subtitle.find? (fun e => e.1 == speaker_id)).map
          (fun e => e.2)).getD "")
        if original_text == last then (msgs1 ++ msgs2, st, cache)
        else
          let st1 : RoomState :=
            { subtitle_seq := st.subtitle_seq + 1
              last_subtitle := (speaker_id, original_text) ::
                st.last_subtitle.filter (fun e => e.1 != speaker_id) }
          let seq := st1.subtitle_seq
          let subtitle_id := fresh_subtitle_id
          let cache1 := store_original cache subtitle_id original_text
            speaker_lang
          let msgs3 := (participants.filter (fun p =>
            p.subtitle_enabled && (p.audio_mode == "original" &&
              p.user_id != speaker_id))).map (fun p =>
            Msg.subtitle p.user_id subtitle_id seq speaker_id original_text
              speaker_lang false)
          let speaker_participant := findParticipant participants speaker_id
          let msgs4 := speaker_self_msgs speaker_participant speaker_id
            subtitle_id seq original_text speaker_lang
          let buckets1 := speaker_buckets speaker_participant buckets0
            speaker_id speaker_lang
          let staged := s2s_stage speaker_id subtitle_id seq participants s2s
            cache1 buckets1
          let translations := collectTranslations staged.2.2
          let cacheFinal := background_fills participants speaker_lang
            translations subtitle_id bg_translate staged.2.1
          (msgs1 ++ msgs2 ++ msgs3 ++ msgs4 ++ staged.1, st1, cacheFinal)

/-! ## Transcript read endpoint (app/rooms/routes.py)

get_room_transcript: 404 on a missing room (there is no privacy check on
this endpoint), then the room subtitles ordered by ascending timestamp,
with the text swapped to the requested language when such a translation
is stored.  HTTP failures are the Except.error code. -/

structure RoomRow where
  id : String
  name : String
  creator_id : String
  is_private : Bool
  is_active : Bool
  deriving Repr, DecidableEq

structure SubtitleRow where
  id : String
  room_id : String
  speaker_id : String
  original_text : String
  original_language : String
  translations : List (String × String)
  timestamp : Nat
  deriving Repr, DecidableEq

structure SubtitleResponse where
  id : String
  speaker_id : String
  speaker_name : String
  original_text : String
  original_language : String
  translations : List (String × String)
  timestamp : Nat
  deriving Repr, DecidableEq

/-- The response text resolution for one row: with a truthy lang
parameter, prefer translations[lang], fall back to the original text
(also when lang equals the original language); without one, the original
text. -/
def transcriptText (lang : Option String) (s : SubtitleRow) : String :=
  match lang with
  | Option.none => s.original_text
  | some lg =>
    if lg = "" then s.original_text
    else
      match (s.translations.find? (fun e => e.1 == lg)).map (fun e => e.2) with
      | some t => t
      | Option.none => s.original_text

def transcriptRow (users : List (String × String)) (lang : Option String)
    (s : SubtitleRow) : SubtitleResponse :=
  { id := s.id
    speaker_id := s.speaker_id
    speaker_name := (((users.find? (fun u => u.1 == s.speaker_id)).map
      (fun u => u.2)).getD "unknown")
    original_text := transcriptText lang s
    original_language := s.original_language
    translations := s.translations
    timestamp := s.timestamp }

/-- GET /rooms/room_id/transcript for an authenticated caller. -/
def get_room_transcript (rooms : List RoomRow) (subtitles : List SubtitleRow)
    (users : List (String × String)) (room_id : String) (lang : Option String)
    (caller_id : String) : Except Nat (List SubtitleResponse) :=
  match rooms.find? (fun r => r.id == room_id) with
  | Option.none => Except.error 404
  | some _ =>
    let rows := (subtitles.filter (fun s => s.room_id == room_id)).mergeSort
      (fun a b => a.timestamp ≤ b.timestamp)
    Except.ok (rows.map (transcriptRow users lang))

-- ===================== Theorems =====================
/-- C3: mark_translation_pending returns true iff no content key exists and
the pending marker was not already set, and an immediately repeated call
returns false, so at most one caller owns the translation work. -/
theorem C3_mark_pending_single_flight (s : CacheState) (subtitle_id lang : String) :
    ((mark_translation_pending s subtitle_id lang).1 = true ↔
      redisGet s.trans (subtitle_id, lang) = none ∧ (subtitle_id, lang) ∉ s.pending) ∧
    ((mark_translation_pending s subtitle_id lang).1 = true →
      (mark_translation_pending (mark_translation_pending s subtitle_id lang).2
        subtitle_id lang).1 = false) := by
  constructor
  · unfold mark_translation_pending
    cases h : redisGet s.trans (subtitle_id, lang) with
    | some t => simp [h]
    | none =>
      by_cases hp : (subtitle_id, lang) ∈ s.pending <;> simp [hp]
  · intro ht
    unfold mark_translation_pending at ht ⊢
    cases h : redisGet s.trans (subtitle_id, lang) with
    | some t => simp [h] at ht
    | none =>
      by_cases hp : (subtitle_id, lang) ∈ s.pending
      · simp [h, hp] at ht
      · simp [h, hp]

/-- Witness for C3 at a concrete cache state. -/
theorem C3_mark_pending_single_flight_witness :
    (mark_translation_pending emptyCache "s1" "en").1 = true ∧
    (mark_translation_pending (mark_translation_pending emptyCache "s1" "en").2
      "s1" "en").1 = false := by
  have h := C3_mark_pending_single_flight emptyCache "s1" "en"
  have h1 : (mark_translation_pending emptyCache "s1" "en").1 = true :=
    h.1.mpr (by decide)
  exact ⟨h1, h.2 h1⟩

/-- C6 fails as stated for the empty translation text: storing "" and
reading back with wait=false yields None (Python truthiness drops the
empty string), not the stored text. -/
theorem C6_store_get_counterexample :
    get_translation_nowait (store_translation emptyCache "s1" "en" "") "s1" "en" ≠
      some "" := by decide

/-- C6 (amended to non-empty text): after store_translation, a wait=false
get_translation returns the stored text, and the pending marker for the
pair is gone. -/
theorem C6_store_then_get (s : CacheState) (subtitle_id lang text : String)
    (h : text ≠ "") :
    get_translation_nowait (store_translation s subtitle_id lang text)
      subtitle_id lang = some text ∧
    (subtitle_id, lang) ∉ (store_translation s subtitle_id lang text).pending := by
  constructor
  · unfold get_translation_nowait store_translation redisGet redisSet
    simp [h]
  · unfold store_translation
    simp [List.mem_filter]

/-- Witness for C6 (amended) at a concrete store. -/
theorem C6_store_then_get_witness :
    get_translation_nowait (store_translation emptyCache "s1" "fr" "salut")
      "s1" "fr" = some "salut" ∧
    ("s1", "fr") ∉ (store_translation emptyCache "s1" "fr" "salut").pending :=
  C6_store_then_get emptyCache "s1" "fr" "salut" (by decide)

/-- C7 fails as stated: when the background fill's translation returns
empty (its failure value), the task finishes with the pending marker
still in place, not cleared. -/
theorem C7_pending_not_cleared_counterexample :
    ("s1", "en") ∈ (translate_and_cache emptyCache "s1" "en" (some "")).pending := by
  decide

/-- C7 (amended): when the owning fill task fails (exception or empty
result), the pending marker stays set and nothing is stored, so a retry
through mark_translation_pending is refused until the marker expires by
TTL. -/
theorem C7_failed_fill_keeps_marker (s : CacheState) (subtitle_id tgt : String)
    (tr : Option String)
    (hnc : redisGet s.trans (subtitle_id, tgt) = none)
    (hnp : (subtitle_id, tgt) ∉ s.pending)
    (hfail : tr = none ∨ tr = some "") :
    (subtitle_id, tgt) ∈ (translate_and_cache s subtitle_id tgt tr).pending ∧
    redisGet (translate_and_cache s subtitle_id tgt tr).trans (subtitle_id, tgt) =
      none ∧
    (mark_translation_pending (translate_and_cache s subtitle_id tgt tr)
      subtitle_id tgt).1 = false := by
  rcases hfail with h | h <;> subst h <;>
    simp [translate_and_cache, mark_translation_pending, hnc, hnp]

/-- Witness for C7 (amended) at a concrete failing fill. -/
theorem C7_failed_fill_keeps_marker_witness :
    ("s1", "en") ∈ (translate_and_cache emptyCache "s1" "en" (some "")).pending ∧
    redisGet (translate_and_cache emptyCache "s1" "en" (some "")).trans
      ("s1", "en") = none ∧
    (mark_translation_pending (translate_and_cache emptyCache "s1" "en" (some ""))
      "s1" "en").1 = false :=
  C7_failed_fill_keeps_marker emptyCache "s1" "en" (some "")
    (by decide) (by decide) (Or.inr rfl)

/-- C8: end_measurement classifies latency into the four bands delimited by
max, 1.5 max and 2 max, and raises the subtitle fallback exactly for
MODERATE or SEVERE degradation or a jitter above twice the jitter bound. -/
theorem C8_end_measurement_bands (maxL maxJ last l : ℚ) (hmax : 0 < maxL) :
    ((end_measurement maxL maxJ last l).degradation_level = DegradationLevel.none ↔
      l ≤ maxL) ∧
    ((end_measurement maxL maxJ last l).degradation_level = DegradationLevel.light ↔
      maxL < l ∧ l ≤ maxL * (3 / 2)) ∧
    ((end_measurement maxL maxJ last l).degradation_level =
        DegradationLevel.moderate ↔ maxL * (3 / 2) < l ∧ l ≤ maxL * 2) ∧
    ((end_measurement maxL maxJ last l).degradation_level =
        DegradationLevel.severe ↔ maxL * 2 < l) ∧
    ((end_measurement maxL maxJ last l).should_fallback_to_subtitle = true ↔
      ((end_measurement maxL maxJ last l).degradation_level =
          DegradationLevel.moderate ∨
        (end_measurement maxL maxJ last l).degradation_level =
          DegradationLevel.severe) ∨
      maxJ * 2 < (end_measurement maxL maxJ last l).jitter_ms) := by
  simp only [end_measurement]
  split_ifs <;> simp_all <;>
    first
      | linarith
      | (intro h <;> linarith)
      | (rintro ⟨h1, h2⟩ <;> linarith)
      | (constructor <;> first | linarith | (intro h <;> linarith))

/-- Witness for C8: a 2500 ms translation against a 1200 ms bound is SEVERE
and triggers the subtitle fallback. -/
theorem C8_end_measurement_bands_witness :
    (end_measurement 1200 200 0 2500).degradation_level =
      DegradationLevel.severe ∧
    (end_measurement 1200 200 0 2500).should_fallback_to_subtitle = true := by
  have h := C8_end_measurement_bands 1200 200 0 2500 (by norm_num)
  have hs : (end_measurement 1200 200 0 2500).degradation_level =
      DegradationLevel.severe := h.2.2.2.1.mpr (by norm_num)
  exact ⟨hs, h.2.2.2.2.mpr (Or.inl (Or.inr hs))⟩

lemma length_filter_map_le {α : Type} (g : α → α) (p : α → Bool)
    (h : ∀ x, p (g x) = true → p x = true) (l : List α) :
    ((l.map g).filter p).length ≤ (l.filter p).length := by
  induction l with
  | nil => simp
  | cons a t ih =>
    simp only [List.map_cons, List.filter_cons]
    cases hpa : p (g a) with
    | true =>
      have hpa2 := h a hpa
      simp only [hpa, hpa2, if_true, List.length_cons]
      omega
    | false =>
      cases hpb : p a with
      | true => simp [hpa, hpb]; omega
      | false => simp [hpa, hpb]; omega

lemma sessInv_getOrCreate (db : SessDB) (room r : String)
    (h : activeCount db r ≤ 1) :
    activeCount (get_or_create_session db room).2 r ≤ 1 := by
  unfold get_or_create_session
  cases hm : memLookup db.memory room with
  | some sid => exact h
  | none =>
    cases hd : dbActive db room with
    | some sid => exact h
    | none =>
      simp only [activeCount, List.filter_cons] at h ⊢
      by_cases hr : room = r
      · subst hr
        have hnil : db.sessions.filter
            (fun s => s.room_id == room && s.is_active) = [] := by
          rw [List.filter_eq_nil_iff]
          exact fun a ha =>
            List.find?_eq_none.mp (Option.map_eq_none'.mp hd) a ha
        simp [hnil]
      · simp only [show (room == r) = false from beq_eq_false_iff_ne.mpr hr,
          Bool.false_and, if_false]
        exact h

lemma sessInv_endSess (db : SessDB) (room r : String)
    (h : activeCount db r ≤ 1) :
    activeCount (end_session db room) r ≤ 1 := by
  unfold end_session
  cases hm : memLookup db.memory room with
  | none => exact h
  | some sid =>
    simp only [activeCount] at h ⊢
    refine le_trans (length_filter_map_le _ _ ?_ db.sessions) h
    intro x hx
    by_cases hid : (x.id == sid) = true
    · simp [hid] at hx
    · simpa [hid] using hx

/-- C2 fails as stated: with no unique-active index and no per-room lock,
two get_or_create_session calls that both pass the SELECT before either
INSERT commits each create a session, reaching a state with two
is_active=true rows for the same room. -/
theorem C2_race_two_active_sessions :
    SessReach ([SessTask.start "r1", SessTask.start "r1"], emptySessDB)
      ([SessTask.done 0, SessTask.done 1],
        ⟨[⟨1, "r1", true⟩, ⟨0, "r1", true⟩], 2, [("r1", 1), ("r1", 0)]⟩) ∧
    activeCount
      ⟨[⟨1, "r1", true⟩, ⟨0, "r1", true⟩], 2, [("r1", 1), ("r1", 0)]⟩ "r1" = 2 := by
  constructor
  · have s1 : SessStep ([SessTask.start "r1", SessTask.start "r1"], emptySessDB)
        ([SessTask.createPending "r1", SessTask.start "r1"], emptySessDB) :=
      SessStep.dbMiss [] [SessTask.start "r1"] "r1" emptySessDB rfl rfl
    have s2 : SessStep
        ([SessTask.createPending "r1", SessTask.start "r1"], emptySessDB)
        ([SessTask.createPending "r1", SessTask.createPending "r1"],
          emptySessDB) :=
      SessStep.dbMiss [SessTask.createPending "r1"] [] "r1" emptySessDB rfl rfl
    have s3 : SessStep
        ([SessTask.createPending "r1", SessTask.createPending "r1"],
          emptySessDB)
        ([SessTask.done 0, SessTask.createPending "r1"],
          ⟨[⟨0, "r1", true⟩], 1, [("r1", 0)]⟩) :=
      SessStep.create [] [SessTask.createPending "r1"] "r1" emptySessDB
    have s4 : SessStep
        ([SessTask.done 0, SessTask.createPending "r1"],
          ⟨[⟨0, "r1", true⟩], 1, [("r1", 0)]⟩)
        ([SessTask.done 0, SessTask.done 1],
          ⟨[⟨1, "r1", true⟩, ⟨0, "r1", true⟩], 2, [("r1", 1), ("r1", 0)]⟩) :=
      SessStep.create [SessTask.done 0] [] "r1"
        ⟨[⟨0, "r1", true⟩], 1, [("r1", 0)]⟩
    exact SessReach.tail _ _ _ (SessReach.tail _ _ _ (SessReach.tail _ _ _
      (SessReach.tail _ _ _ (SessReach.refl _) s1) s2) s3) s4
  · decide

/-- C2 (amended): when get_or_create_session and end_session are
serialized (each call runs atomically, as a per-room mutex would
enforce), every execution from the empty database keeps at most one
is_active=true meeting session per room; the code itself ships neither a
unique-active index nor such a mutex, so the serialized model is the
amendment. -/
theorem C2_serialized_unique_active (ops : List SessOp) (room : String) :
    activeCount (runSessOps emptySessDB ops) room ≤ 1 := by
  suffices h : ∀ db, (∀ r, activeCount db r ≤ 1) →
      ∀ r, activeCount (runSessOps db ops) r ≤ 1 by
    exact h emptySessDB (fun r => by simp [activeCount, emptySessDB]) room
  induction ops with
  | nil => intro db h r; exact h r
  | cons op t ih =>
    intro db h r
    have step : ∀ r2, activeCount (applySessOp db op) r2 ≤ 1 := by
      intro r2
      cases op with
      | getOrCreate rm => exact sessInv_getOrCreate db rm r2 (h r2)
      | endSess rm => exact sessInv_endSess db rm r2 (h r2)
    simpa [runSessOps, List.foldl_cons] using ih (applySessOp db op) step r

lemma sliceBytes_length (b : List Nat) (i j : Nat) :
    (sliceBytes b i j).length = min (j - i) (b.length - i) := by
  simp [sliceBytes]

lemma unpackU32le_isSome {l : List Nat} (h : l.length = 4) :
    (unpackU32le l).isSome := by
  rcases l with _ | ⟨a, _ | ⟨b, _ | ⟨c, _ | ⟨d, _ | ⟨e, t⟩⟩⟩⟩⟩ <;>
    simp_all [unpackU32le]

lemma findData_ok_of_fuel (wav : List Nat) (sr ch : Nat) :
    ∀ fuel pos, wav.length - pos ≤ fuel →
      ∃ v, findData wav sr ch pos = Except.ok v := by
  intro fuel
  induction fuel with
  | zero =>
    intro pos hp
    rw [findData]
    rw [dif_neg (by omega)]
    exact ⟨Option.none, rfl⟩
  | succ n ih =>
    intro pos hp
    rw [findData]
    by_cases hg : pos + 8 < wav.length
    · rw [dif_pos hg]
      have hlen : (sliceBytes wav (pos + 4) (pos + 8)).length = 4 := by
        rw [sliceBytes_length]; omega
      obtain ⟨c, hc⟩ := Option.isSome_iff_exists.mp (unpackU32le_isSome hlen)
      rw [hc]
      dsimp only
      by_cases ht : sliceBytes wav pos (pos + 4) = dataTag
      · rw [if_pos ht]
        exact ⟨_, rfl⟩
      · rw [if_neg ht]
        exact ih (pos + 8 + c) (by omega)
    · rw [dif_neg hg]
      exact ⟨Option.none, rfl⟩

lemma extract_pcm_ok (wav : List Nat) :
    ∃ v, extract_pcm_from_wav wav = Except.ok v := by
  unfold extract_pcm_from_wav
  cases hp : parse_wav_header wav with
  | none => exact ⟨Option.none, rfl⟩
  | some triple =>
    obtain ⟨sr, ch, bits⟩ := triple
    dsimp only
    by_cases hb : bits ≠ 16
    · rw [if_pos hb]
      exact ⟨Option.none, rfl⟩
    · rw [if_neg hb]
      exact findData_ok_of_fuel wav sr ch (wav.length - 12) 12 (by omega)

lemma get_audio_energy_sq_ok (wav : List Nat) :
    ∃ q, get_audio_energy_sq wav = Except.ok q := by
  obtain ⟨v, hv⟩ := extract_pcm_ok wav
  unfold get_audio_energy_sq
  rw [hv]
  cases v with
  | none => exact ⟨0, rfl⟩
  | some pr =>
    obtain ⟨pcm, sr⟩ := pr
    dsimp only
    by_cases hl : pcm.length < 2
    · rw [if_pos hl]; exact ⟨0, rfl⟩
    · rw [if_neg hl]; exact ⟨_, rfl⟩

lemma detect_voice_activity_ok (env : VadEnv) (wav : List Nat) (minR : ℚ) :
    ∃ r, detect_voice_activity env wav minR = Except.ok r := by
  unfold detect_voice_activity
  by_cases ha : env.available = false
  · rw [if_pos ha]; exact ⟨_, rfl⟩
  · rw [if_neg ha]
    obtain ⟨v, hv⟩ := extract_pcm_ok wav
    rw [hv]
    cases v with
    | none => exact ⟨_, rfl⟩
    | some pr =>
      obtain ⟨pcm, sr⟩ := pr
      dsimp only
      by_cases hs : sr ∉ ([8000, 16000, 32000, 48000] : List Nat)
      · rw [if_pos hs]; exact ⟨_, rfl⟩
      · rw [if_neg hs]
        by_cases hl : pcm.length < sr * 20 / 1000 * 2
        · rw [if_pos hl]; exact ⟨_, rfl⟩
        · rw [if_neg hl]
          by_cases hz : (countFrames env pcm sr (sr * 20 / 1000 * 2) 0).1 = 0
          · rw [if_pos hz]; exact ⟨_, rfl⟩
          · rw [if_neg hz]; exact ⟨_, rfl⟩

lemma has_speech_ok (env : VadEnv) (wav : List Nat) (minE minR : ℚ) :
    ∃ b, has_speech env wav minE minR = Except.ok b := by
  obtain ⟨q, hq⟩ := get_audio_energy_sq_ok wav
  unfold has_speech
  rw [hq]
  dsimp only
  by_cases he : q < minE ^ 2
  · rw [if_pos he]; exact ⟨false, rfl⟩
  · rw [if_neg he]
    obtain ⟨r, hr⟩ := detect_voice_activity_ok env wav minR
    rw [hr]
    exact ⟨r.has_speech, rfl⟩

/-- C10: the VAD gate is total on arbitrary byte strings.  PCM extraction
never escapes with an exception; the energy measure always returns; the
gate always returns; and on input the header parser rejects, extraction
yields None, the energy is zero and the gate refuses the blob (for any
positive energy threshold, as the configured 500 and 300 are). -/
theorem C10_vad_gate_total (env : VadEnv) (wav : List Nat) (minE minR : ℚ) :
    (∃ v, extract_pcm_from_wav wav = Except.ok v) ∧
    (∃ q, get_audio_energy_sq wav = Except.ok q) ∧
    (∃ b, has_speech env wav minE minR = Except.ok b) ∧
    (parse_wav_header wav = Option.none →
      extract_pcm_from_wav wav = Except.ok Option.none ∧
      get_audio_energy_sq wav = Except.ok 0 ∧
      (0 < minE → has_speech env wav minE minR = Except.ok false)) := by
  refine ⟨extract_pcm_ok wav, get_audio_energy_sq_ok wav,
    has_speech_ok env wav minE minR, ?_⟩
  intro hp
  have hex : extract_pcm_from_wav wav = Except.ok Option.none := by
    unfold extract_pcm_from_wav
    rw [hp]
  have hen : get_audio_energy_sq wav = Except.ok 0 := by
    unfold get_audio_energy_sq
    rw [hex]
  refine ⟨hex, hen, ?_⟩
  intro hpos
  unfold has_speech
  rw [hen]
  dsimp only
  rw [if_pos (by positivity)]

/-- Witness for C10 on a concrete truncated blob. -/
theorem C10_vad_gate_total_witness :
    parse_wav_header [0, 1, 2] = Option.none ∧
    has_speech ⟨true, fun _ _ => some false⟩ [0, 1, 2] 500 (1 / 10) =
      Except.ok false := by
  have h := C10_vad_gate_total ⟨true, fun _ _ => some false⟩ [0, 1, 2] 500 (1 / 10)
  have hp : parse_wav_header [0, 1, 2] = Option.none := by decide
  exact ⟨hp, (h.2.2.2 hp).2.2 (by norm_num)⟩

/-- C1 fails on the code: _process_s2s_translation never reads
should_fallback_to_subtitle and nothing in the backend builds a
qos_warning message.  Evaluated on a translation result whose QoS metrics
demand fallback (severe degradation, fallback flag set), the helper still
sends the translated audio bytes to the translated-mode listener and emits
no qos_warning: the produced traffic is exactly the audio followed by the
translated subtitle. -/
theorem C1_qos_fallback_ignored :
    (process_s2s_translation "alice" "en" ["bob"] "s1" 1
      [⟨"alice", "Alice", "ja", "translated", true, "ja"⟩,
       ⟨"bob", "Bob", "en", "translated", true, "en"⟩]
      (some ⟨"alice", "ja", "en", "konnichiwa", "hello", some [1, 2, 3],
        ⟨3000, 0, DegradationLevel.severe, true⟩⟩) emptyCache).1 =
      [Msg.audioBytes "bob" [1, 2, 3],
       Msg.subtitle "bob" "s1" 1 "alice" "hello" "en" true] := by
  rfl

/-- C4 fails as stated: when the S2S translation call for a bucket raises,
the helper catches the exception and sends nothing at all to the bucket —
no original-text subtitle and no translation_failed flag (such a flag
exists nowhere in the backend). -/
theorem C4_failed_bucket_counterexample :
    (process_s2s_translation "alice" "en" ["bob"] "s1" 1
      [⟨"bob", "Bob", "en", "translated", true, "en"⟩] Option.none
      emptyCache).1 = ([] : List Msg) := by
  rfl

lemma process_s2s_msgs_cache_indep (sp tgt : String) (us : List String)
    (sid : String) (seq : Nat) (ps : List Participant)
    (res : Option ProcessedAudio) (c1 c2 : CacheState) :
    (process_s2s_translation sp tgt us sid seq ps res c1).1 =
    (process_s2s_translation sp tgt us sid seq ps res c2).1 := by
  cases res <;> rfl

lemma mem_s2s_stage (sp sid : String) (seq : Nat) (ps : List Participant)
    (oracle : String → Option ProcessedAudio) :
    ∀ (buckets : List Bucket) (cache : CacheState) (b : Bucket), b ∈ buckets →
      ∀ m ∈ (process_s2s_translation sp b.target_lang b.users sid seq ps
        (oracle b.target_lang) cache).1,
      m ∈ (s2s_stage sp sid seq ps oracle cache buckets).1 := by
  intro buckets
  induction buckets with
  | nil => intro cache b hb; simp at hb
  | cons hd tl ih =>
    intro cache b hb m hm
    rcases List.mem_cons.mp hb with h | h
    · subst h
      simp only [s2s_stage, List.mem_append]
      exact Or.inl hm
    · simp only [s2s_stage, List.mem_append]
      refine Or.inr (ih _ b h m ?_)
      rw [process_s2s_msgs_cache_indep sp b.target_lang b.users sid seq ps
        (oracle b.target_lang) _ cache]
      exact hm

lemma subtitle_mem_process_s2s (sp tgt : String) (us : List String)
    (sid : String) (seq : Nat) (ps : List Participant) (r : ProcessedAudio)
    (c : CacheState) (hne : r.translated_text ≠ "") (u : String) (hu : u ∈ us)
    (p : Participant) (hp : findParticipant ps u = some p)
    (hsub : p.subtitle_enabled = true) :
    Msg.subtitle u sid seq sp r.translated_text tgt true ∈
      (process_s2s_translation sp tgt us sid seq ps (some r) c).1 := by
  unfold process_s2s_translation
  dsimp only
  rw [if_pos (by simp [hne])]
  apply List.mem_join.mpr
  refine ⟨_, List.mem_map.mpr ⟨u, hu, rfl⟩, ?_⟩
  apply List.mem_append.mpr
  right
  rw [hp]
  simp [hsub]

/-- C4 (amended): a bucket whose S2S call raises receives no messages at
all for the utterance (no subtitle and no audio), while every bucket whose
call succeeded still has its translated subtitle delivered to its
subtitle-enabled members — one bucket failing does not hold up the
others. -/
theorem C4_bucket_failure_isolated (speaker_id subtitle_id : String)
    (seq : Nat) (participants : List Participant)
    (oracle : String → Option ProcessedAudio) (cache : CacheState)
    (buckets : List Bucket) (b : Bucket)
    (hfail : oracle b.target_lang = Option.none) (b2 : Bucket)
    (hb2 : b2 ∈ buckets) (r : ProcessedAudio)
    (hok : oracle b2.target_lang = some r) (hne : r.translated_text ≠ "")
    (u : String) (hu : u ∈ b2.users) (p : Participant)
    (hp : findParticipant participants u = some p)
    (hsub : p.subtitle_enabled = true) :
    (process_s2s_translation speaker_id b.target_lang b.users subtitle_id seq
      participants (oracle b.target_lang) cache).1 = [] ∧
    Msg.subtitle u subtitle_id seq speaker_id r.translated_text b2.target_lang
      true ∈
      (s2s_stage speaker_id subtitle_id seq participants oracle cache
        buckets).1 := by
  constructor
  · rw [hfail]; rfl
  · refine mem_s2s_stage speaker_id subtitle_id seq participants oracle
      buckets cache b2 hb2 _ ?_
    rw [hok]
    exact subtitle_mem_process_s2s speaker_id b2.target_lang b2.users
      subtitle_id seq participants r cache hne u hu p hp hsub

/-- Witness for C4 (amended): bucket en fails, bucket zh succeeds and its
listener carol still receives the zh subtitle. -/
theorem C4_bucket_failure_isolated_witness :
    (process_s2s_translation "alice" "en" ["bob"] "s1" 7
      [⟨"bob", "Bob", "en", "translated", true, "en"⟩,
       ⟨"carol", "Carol", "zh", "translated", true, "zh"⟩]
      ((fun t => if t = "zh" then
          some ⟨"alice", "ja", "zh", "konnichiwa", "nihao", some [9],
            ⟨100, 0, DegradationLevel.none, false⟩⟩
        else Option.none) "en") emptyCache).1 = [] ∧
    Msg.subtitle "carol" "s1" 7 "alice" "nihao" "zh" true ∈
      (s2s_stage "alice" "s1" 7
        [⟨"bob", "Bob", "en", "translated", true, "en"⟩,
         ⟨"carol", "Carol", "zh", "translated", true, "zh"⟩]
        (fun t => if t = "zh" then
          some ⟨"alice", "ja", "zh", "konnichiwa", "nihao", some [9],
            ⟨100, 0, DegradationLevel.none, false⟩⟩
         else Option.none) emptyCache
        [⟨"en", ["bob"]⟩, ⟨"zh", ["carol"]⟩]).1 :=
  C4_bucket_failure_isolated "alice" "s1" 7
    [⟨"bob", "Bob", "en", "translated", true, "en"⟩,
     ⟨"carol", "Carol", "zh", "translated", true, "zh"⟩]
    (fun t => if t = "zh" then
      some ⟨"alice", "ja", "zh", "konnichiwa", "nihao", some [9],
        ⟨100, 0, DegradationLevel.none, false⟩⟩
     else Option.none) emptyCache
    [⟨"en", ["bob"]⟩, ⟨"zh", ["carol"]⟩] ⟨"en", ["bob"]⟩ (by simp)
    ⟨"zh", ["carol"]⟩ (by simp)
    ⟨"alice", "ja", "zh", "konnichiwa", "nihao", some [9],
      ⟨100, 0, DegradationLevel.none, false⟩⟩
    (by simp) (by simp) "carol" (by simp)
    ⟨"carol", "Carol", "zh", "translated", true, "zh"⟩ (by simp [findParticipant])
    rfl

lemma no_speaker_audio_process_s2s (sp tgt : String) (us : List String)
    (sid : String) (seq : Nat) (ps : List Participant)
    (res : Option ProcessedAudio) (c : CacheState) (d : List Nat) :
    Msg.audioBytes sp d ∉ (process_s2s_translation sp tgt us sid seq ps res c).1 := by
  cases res with
  | none => simp [process_s2s_translation]
  | some r =>
    unfold process_s2s_translation
    dsimp only
    by_cases hc : (audioTruthy r.audio_data || r.translated_text != "") = true
    · rw [if_pos hc]
      intro hm
      obtain ⟨l, hl, hml⟩ := List.mem_join.mp hm
      obtain ⟨u, hu, he⟩ := List.mem_map.mp hl
      subst he
      rcases List.mem_append.mp hml with h | h
      · by_cases hg : (audioTruthy r.audio_data && u != sp) = true
        · rw [if_pos hg] at h
          simp at h
          obtain ⟨h1, h2⟩ := h
          have := (Bool.and_eq_true _ _).mp hg
          rw [h1] at this
          simp at this
        · rw [if_neg hg] at h
          simp at h
      · cases hfp : findParticipant ps u with
        | none => rw [hfp] at h; simp at h
        | some p =>
          rw [hfp] at h
          dsimp only at h
          by_cases hs : p.subtitle_enabled = true
          · rw [if_pos hs] at h; simp at h
          · rw [if_neg hs] at h; simp at h
    · rw [if_neg hc]
      simp

lemma no_speaker_audio_s2s_stage (sp sid : String) (seq : Nat)
    (ps : List Participant) (oracle : String → Option ProcessedAudio)
    (d : List Nat) :
    ∀ (buckets : List Bucket) (cache : CacheState),
      Msg.audioBytes sp d ∉ (s2s_stage sp sid seq ps oracle cache buckets).1 := by
  intro buckets
  induction buckets with
  | nil => intro cache; simp [s2s_stage]
  | cons hd tl ih =>
    intro cache
    simp only [s2s_stage, List.mem_append]
    push_neg
    exact ⟨no_speaker_audio_process_s2s sp hd.target_lang hd.users sid seq ps
      (oracle hd.target_lang) cache d, ih _⟩

lemma no_audio_in_self_msgs (sp : Option Participant) (speaker_id sid : String)
    (seq : Nat) (text lang : String) (who : String) (d : List Nat) :
    Msg.audioBytes who d ∉
      speaker_self_msgs sp speaker_id sid seq text lang := by
  cases sp with
  | none => simp [speaker_self_msgs]
  | some p =>
    unfold speaker_self_msgs
    dsimp only
    split_ifs <;> simp

lemma no_speaker_audio_fanout (sp : String) (d bytes : List Nat)
    (ps : List Participant) (pred : Participant → Bool)
    (h : ∀ p, pred p = true → (p.user_id != sp) = true) :
    Msg.audioBytes sp d ∉
      ((ps.filter pred).map (fun p => p.user_id)).map
        (fun u => Msg.audioBytes u bytes) := by
  intro hm
  obtain ⟨u, hu, he⟩ := List.mem_map.mp hm
  obtain ⟨p, hp, hpe⟩ := List.mem_map.mp hu
  injection he with h1 h2
  have hpred := h p (List.mem_filter.mp hp).2
  rw [hpe, h1] at hpred
  simp at hpred

/-- C9: through the whole dual-path pipeline, no audio bytes are ever
addressed to the speaker of the utterance: the immediate original fan-out
and the reclassification fan-out filter the speaker out, and translated
audio delivery is guarded by a speaker check, so the speaker can at most
receive subtitles.  This holds for every input, oracle outcome and
state. -/
theorem C9_speaker_never_receives_audio (env : VadEnv) (speaker_id : String)
    (audio_bytes : List Nat) (hint : String) (participants : List Participant)
    (detect : String × String) (s2s : String → Option ProcessedAudio)
    (bg : String → Option String) (sid : String) (st : RoomState)
    (cache : CacheState) (d : List Nat) :
    Msg.audioBytes speaker_id d ∉
      (process_audio_dual_path env speaker_id audio_bytes hint participants
        detect s2s bg sid st cache).1 := by
  unfold process_audio_dual_path
  by_cases h1 : audio_bytes.length < 44 + 16000
  · rw [if_pos h1]; simp
  · rw [if_neg h1]
    cases hsp : has_speech env audio_bytes 300 (1 / 10) with
    | error e => simp
    | ok b =>
      cases b with
      | false => simp
      | true =>
        by_cases h2 : detect.1 = ""
        · rw [if_pos h2]
          exact no_speaker_audio_fanout speaker_id d audio_bytes participants _
            (fun p hp => ((Bool.and_eq_true _ _).mp hp).1)
        · rw [if_neg h2]
          dsimp only
          by_cases h3 : (detect.1 ==
              (((st.last_subtitle.find? (fun e => e.1 == speaker_id)).map
                (fun e => e.2)).getD "")) = true
          · rw [if_pos h3]
            intro hm
            rcases List.mem_append.mp hm with hm1 | hm2
            · exact no_speaker_audio_fanout speaker_id d audio_bytes
                participants _ (fun p hp => ((Bool.and_eq_true _ _).mp hp).1)
                hm1
            · exact no_speaker_audio_fanout speaker_id d audio_bytes
                participants _
                (fun p hp =>
                  ((Bool.and_eq_true _ _).mp
                    ((Bool.and_eq_true _ _).mp hp).1).1)
                hm2
          · rw [if_neg h3]
            intro hm
            simp only [List.mem_append] at hm
            rcases hm with ((((hm1 | hm2) | hm3) | hm4) | hm5)
            · exact no_speaker_audio_fanout speaker_id d audio_bytes
                participants _ (fun p hp => ((Bool.and_eq_true _ _).mp hp).1)
                hm1
            · exact no_speaker_audio_fanout speaker_id d audio_bytes
                participants _
                (fun p hp =>
                  ((Bool.and_eq_true _ _).mp
                    ((Bool.and_eq_true _ _).mp hp).1).1)
                hm2
            · simp at hm3
            · exact no_audio_in_self_msgs _ speaker_id sid _ detect.1 _
                speaker_id d hm4
            · exact no_speaker_audio_s2s_stage speaker_id sid
                (st.subtitle_seq + 1) participants s2s d _ _ hm5

/-- C5 fails as stated: get_room_transcript checks only existence of the
room; a private room created by alice is served in full to the
authenticated non-creator bob with status 200, not 403 (the 403 guard
lives only on the room-detail endpoint). -/
theorem C5_private_transcript_counterexample :
    get_room_transcript [⟨"r1", "Room", "alice", true, true⟩] [] [] "r1"
      Option.none "bob" = Except.ok [] := by
  unfold get_room_transcript
  simp

/-- C5 (amended): for an authenticated caller, a missing room yields 404;
any existing room — private or not, whoever the caller is — yields its
subtitle rows in ascending timestamp order, the returned rows being
exactly the room subtitles. -/
theorem C5_transcript_read (rooms : List RoomRow) (subs : List SubtitleRow)
    (users : List (String × String)) (room_id : String) (lang : Option String)
    (caller : String) :
    (rooms.find? (fun r => r.id == room_id) = Option.none →
      get_room_transcript rooms subs users room_id lang caller =
        Except.error 404) ∧
    (∀ room, rooms.find? (fun r => r.id == room_id) = some room →
      ∃ rows, get_room_transcript rooms subs users room_id lang caller =
          Except.ok rows ∧
        List.Pairwise (fun a b => a.timestamp ≤ b.timestamp) rows ∧
        List.Perm (rows.map (fun r => r.id))
          ((subs.filter (fun s => s.room_id == room_id)).map
            (fun s => s.id))) := by
  constructor
  · intro h
    unfold get_room_transcript
    rw [h]
  · intro room h
    unfold get_room_transcript
    rw [h]
    refine ⟨_, rfl, ?_, ?_⟩
    · have hs := @List.sorted_mergeSort SubtitleRow
        (fun a b => decide (a.timestamp ≤ b.timestamp))
        (by intro a b c hab hbc; simp at hab hbc ⊢; omega)
        (by intro a b; simp; omega)
        (subs.filter (fun s => s.room_id == room_id))
      refine List.Pairwise.map _ ?_ hs
      intro a b hab
      simpa [transcriptRow] using hab
    · rw [List.map_map]
      have hperm := List.mergeSort_perm
        (subs.filter (fun s => s.room_id == room_id))
        (fun a b => a.timestamp ≤ b.timestamp)
      have := hperm.map (fun s => s.id)
      simpa [Function.comp, transcriptRow] using this

/-- Witness for C5 (amended): a missing room and a room with out-of-order
stored subtitles. -/
theorem C5_transcript_read_witness :
    (get_room_transcript [] [] [] "r1" Option.none "bob" =
      Except.error 404) ∧
    ∃ rows, get_room_transcript [⟨"r1", "Room", "alice", true, true⟩]
        [⟨"s2", "r1", "u1", "late", "en", [], 5⟩,
         ⟨"s1", "r1", "u1", "early", "en", [], 3⟩] [] "r1" Option.none "bob" =
        Except.ok rows ∧
      List.Pairwise (fun a b => a.timestamp ≤ b.timestamp) rows ∧
      List.Perm (rows.map (fun r => r.id))
        ((([⟨"s2", "r1", "u1", "late", "en", [], 5⟩,
            ⟨"s1", "r1", "u1", "early", "en", [], 3⟩] :
             List SubtitleRow).filter (fun s => s.room_id == "r1")).map
          (fun s => s.id)) :=
  ⟨(C5_transcript_read [] [] [] "r1" Option.none "bob").1 rfl,
   (C5_transcript_read [⟨"r1", "Room", "alice", true, true⟩]
      [⟨"s2", "r1", "u1", "late", "en", [], 5⟩,
       ⟨"s1", "r1", "u1", "early", "en", [], 3⟩] [] "r1" Option.none "bob").2
     ⟨"r1", "Room", "alice", true, true⟩ (by rfl)⟩

end LAMS
